import Mathlib

/-!
Shallow embedding of the Guliver repository's core behaviour: the
`match_posts` similarity search defined in the SQL schema, the task status
lifecycle exposed by its analysis API, the events-stream consumer of
`ResultsPanel`, and the popularity ordering of displayed results.

The pgvector cosine-distance operator is treated as an abstract function
argument `dist`; everything computed from it (the similarity column, the
WHERE clause, the ORDER BY key) follows the SQL text.
-/

/-- A row of the `reddit_posts` table (create_table.sql): textual fields,
source metadata, an integer score and a pgvector embedding modelled as a
list of rationals. -/
structure RedditPost where
  id : String
  title : String
  selftext : String
  analysis : String
  subreddit : String
  url : String
  score : Int
  embedding : List ℚ
deriving DecidableEq, Repr

/-- A row returned by `match_posts`: the selected columns of `reddit_posts`
plus the computed `similarity` column. -/
structure MatchRow where
  id : String
  title : String
  selftext : String
  analysis : String
  subreddit : String
  url : String
  score : Int
  similarity : ℚ
deriving DecidableEq, Repr

/-- Similarity as computed by `match_posts`:
`1 - (reddit_posts.embedding <=> query_embedding)`, with the cosine distance
operator `<=>` abstracted as `dist`. -/
def simOf (dist : List ℚ → List ℚ → ℚ) (q : List ℚ) (p : RedditPost) : ℚ :=
  1 - dist p.embedding q

/-- The SELECT list of `match_posts`: the post's stored columns together with
its computed similarity. -/
def rowOf (dist : List ℚ → List ℚ → ℚ) (q : List ℚ) (p : RedditPost) : MatchRow :=
  { id := p.id, title := p.title, selftext := p.selftext, analysis := p.analysis,
    subreddit := p.subreddit, url := p.url, score := p.score,
    similarity := simOf dist q p }

/-- The subreddit clause of the four-parameter `match_posts`:
`subreddit_filter is null or reddit_posts.subreddit = subreddit_filter`. -/
def filtOk (filt : Option String) (p : RedditPost) : Bool :=
  match filt with
  | none => true
  | some f => p.subreddit == f

/-- The WHERE clause of the four-parameter `match_posts`: subreddit filter
(when provided) and similarity strictly above the threshold. -/
def whereOk (dist : List ℚ → List ℚ → ℚ) (q : List ℚ) (τ : ℚ)
    (filt : Option String) (p : RedditPost) : Bool :=
  filtOk filt p && decide (τ < simOf dist q p)

/-- The WHERE clause of the three-parameter `match_posts`
(threshold condition only). -/
def whereOk3 (dist : List ℚ → List ℚ → ℚ) (q : List ℚ) (τ : ℚ)
    (p : RedditPost) : Bool :=
  decide (τ < simOf dist q p)

/-- The ORDER BY key of `match_posts`: ascending cosine distance to the
query. No further sort key appears in the SQL, so ties are unordered. -/
def distLE (dist : List ℚ → List ℚ → ℚ) (q : List ℚ) (a b : RedditPost) : Prop :=
  dist a.embedding q ≤ dist b.embedding q

/-- Result relation of the four-parameter `match_posts` body: `r` consists of
the selected rows of some arrangement `s` of the posts passing the WHERE
clause, sorted by ascending distance (equal-distance posts in an arbitrary
order, since the SQL supplies no secondary sort key) and truncated by
`limit match_count`. -/
def match_posts (dist : List ℚ → List ℚ → ℚ) (tbl : List RedditPost) (q : List ℚ)
    (τ : ℚ) (k : ℕ) (filt : Option String) (r : List MatchRow) : Prop :=
  ∃ s : List RedditPost,
    s.Perm (tbl.filter (whereOk dist q τ filt)) ∧
    s.Pairwise (distLE dist q) ∧
    r = (s.take k).map (rowOf dist q)

/-- Result relation of the three-parameter `match_posts` body (no subreddit
filter parameter), otherwise identical to the four-parameter form. -/
def match_posts3 (dist : List ℚ → List ℚ → ℚ) (tbl : List RedditPost) (q : List ℚ)
    (τ : ℚ) (k : ℕ) (r : List MatchRow) : Prop :=
  ∃ s : List RedditPost,
    s.Perm (tbl.filter (whereOk3 dist q τ)) ∧
    s.Pairwise (distLE dist q) ∧
    r = (s.take k).map (rowOf dist q)

/-- Failure mode of calling `match_posts`: the `vector(1536)` parameter type
rejects a query embedding of any other dimensionality. -/
inductive MatchErr where
  | invalidVector
deriving DecidableEq, Repr

/-- Dimensionality of the index: `vector(1536)` in the schema. -/
def vecDims : ℕ := 1536

/-- Behaviour of a call to the four-parameter `match_posts`: a query of the
wrong dimensionality is rejected with `invalidVector`; otherwise the call
returns a row list admitted by `match_posts`. -/
def match_posts_call (dist : List ℚ → List ℚ → ℚ) (tbl : List RedditPost)
    (q : List ℚ) (τ : ℚ) (k : ℕ) (filt : Option String)
    (out : Except MatchErr (List MatchRow)) : Prop :=
  (q.length ≠ vecDims ∧ out = Except.error MatchErr.invalidVector) ∨
  (q.length = vecDims ∧ ∃ r, match_posts dist tbl q τ k filt r ∧ out = Except.ok r)

/-- Modelled from the spec: the backend search service that threads the
caller-supplied seen-identifier set is not among the embedded sources (only
the `match_posts` primitive is); per the spec it performs the same ranked
retrieval restricted additionally to items whose identifier is not in the
excluded set, the set being an argument of each call rather than stored
state. -/
def searchWithSeen (dist : List ℚ → List ℚ → ℚ) (tbl : List RedditPost)
    (q : List ℚ) (τ : ℚ) (k : ℕ) (filt : Option String) (seen : List String)
    (r : List MatchRow) : Prop :=
  ∃ s : List RedditPost,
    s.Perm ((tbl.filter (whereOk dist q τ filt)).filter
      (fun p => !(decide (p.id ∈ seen)))) ∧
    s.Pairwise (distLE dist q) ∧
    r = (s.take k).map (rowOf dist q)

/-- Status vocabulary of the analysis API. -/
inductive Status where
  | pending
  | running
  | success
  | cancelled
  | error
deriving DecidableEq, Repr

/-- Terminal statuses: success, cancelled and error. -/
def Status.isTerminal : Status → Bool
  | .pending => false
  | .running => false
  | _ => true

/-- Modelled from the spec: a task as held by the TaskRegistry — status,
result payload (present only on success) and error detail. -/
structure AnalysisTask where
  status : Status
  data : Option (List RedditPost)
  errMsg : Option String
deriving DecidableEq, Repr

/-- A freshly created task: status pending, no payload, no error. -/
def initTask : AnalysisTask :=
  { status := Status.pending, data := none, errMsg := none }

/-- Modelled from the spec: the TaskRegistry transition relation. pending
moves to running when the pipeline starts; running moves to success carrying
the assembled payload, or to error carrying the failure detail; cancel moves
a pending or running task to cancelled, discarding partial work. No
transition leaves a terminal status. -/
inductive TaskStep : AnalysisTask → AnalysisTask → Prop where
  | start (t : AnalysisTask) : t.status = Status.pending →
      TaskStep t { t with status := Status.running }
  | finish (t : AnalysisTask) (items : List RedditPost) : t.status = Status.running →
      TaskStep t { status := Status.success, data := some items, errMsg := none }
  | fail (t : AnalysisTask) (e : String) : t.status = Status.running →
      TaskStep t { status := Status.error, data := none, errMsg := some e }
  | cancelPending (t : AnalysisTask) : t.status = Status.pending →
      TaskStep t { status := Status.cancelled, data := none, errMsg := none }
  | cancelRunning (t : AnalysisTask) : t.status = Status.running →
      TaskStep t { status := Status.cancelled, data := none, errMsg := none }

/-- A task state reachable from creation through registry transitions. -/
def Reachable (t : AnalysisTask) : Prop :=
  Relation.ReflTransGen TaskStep initTask t

/-- Position of a status along the pending → running → terminal progression. -/
def statusRank : Status → ℕ
  | Status.pending => 0
  | Status.running => 1
  | _ => 2

/-- Modelled from the spec: a pipeline run's state — its task and the
cancellation token of its CancellationController. -/
structure RunState where
  task : AnalysisTask
  cancelToken : Bool
deriving DecidableEq, Repr

/-- Modelled from the spec: `cancel(taskId)`. A pending or running task is
marked cancelled and the cancellation signal raised for the owning run; a
terminal task is left unchanged and its existing status returned. -/
def cancelOp (s : RunState) : RunState × Status :=
  if s.task.status.isTerminal then (s, s.task.status)
  else ({ task := { s.task with status := Status.cancelled }, cancelToken := true },
    Status.cancelled)

/-- The `Post` interface of searchStore.ts. -/
structure StorePost where
  id : String
  created_at : String
  title : String
  selftext : String
  analysis : String
  url : String
  score : Int
  similarity : Option ℚ
deriving DecidableEq, Repr

/-- The `EventResponce` interface of searchStore.ts: the payload shape the
events-stream consumer stores as task results. -/
structure EventResponce where
  data : List StorePost
  subreddit : String
  timeframe : String
  status : String
deriving DecidableEq, Repr

/-- The slice of the search store state touched by the stream handler. -/
structure SearchStoreState where
  taskResults : Option EventResponce
  isDone : Bool
deriving DecidableEq, Repr

/-- The `onmessage` handler of the shared ResultsPanel: a message whose
status is the string "in process" clears the stored results and leaves the
stream open; a message with any other status closes the stream, stores the
message as the task results and marks the task done. The second component
records whether the handler closed the stream. -/
def handleEvent (s : SearchStoreState) (msg : EventResponce) :
    SearchStoreState × Bool :=
  if msg.status == "in process" then ({ s with taskResults := none }, false)
  else ({ taskResults := some msg, isDone := true }, true)

/-- The status vocabulary named by the status endpoint description. -/
def specStatuses : List String :=
  ["pending", "running", "success", "cancelled", "error"]

/-- The terminal members of that vocabulary. -/
def specTerminal : List String :=
  ["success", "cancelled", "error"]

/-- The score comparator of ResultsPanel, `(a, b) => b.score - a.score`:
descending score. -/
def scoreDescB (a b : RedditPost) : Bool :=
  decide (b.score ≤ a.score)

/-- The keep-first duplicate filter of ResultsPanel: a post is kept exactly
when no earlier post in the list shares both its id and its score. -/
def dedupBy (seen : List (String × Int)) : List RedditPost → List RedditPost
  | [] => []
  | p :: rest =>
    if (p.id, p.score) ∈ seen then dedupBy seen rest
    else p :: dedupBy ((p.id, p.score) :: seen) rest

/-- The rendering order of ResultsPanel (part of the problem-search page):
sort a copy of the results by score descending, then drop duplicate
(id, score) entries. -/
def displayedResults (results : List RedditPost) : List RedditPost :=
  dedupBy [] (results.mergeSort scoreDescB)

/-- Modelled from the spec: the AnalysisPipeline path without a similarity
query — fetched items pass through unfiltered but sorted by popularity score
descending, and the per-item analysis stage attaches analysis text to each
item in order; the resulting sequence is the success payload. -/
def pipelineNoQueryData (analyze : RedditPost → String)
    (items : List RedditPost) : List RedditPost :=
  (items.mergeSort scoreDescB).map (fun p => { p with analysis := analyze p })

/-- Constant distance function used to instantiate the abstract cosine
distance on concrete examples. -/
def d0 : List ℚ → List ℚ → ℚ := fun _ _ => 0

/-- A concrete stored post. -/
def postA : RedditPost :=
  { id := "a", title := "t", selftext := "", analysis := "", subreddit := "s",
    url := "", score := 1, embedding := [] }

/-- A second stored post identical to `postA` except for its identifier, so
both lie at the same distance from every query. -/
def postB : RedditPost :=
  { postA with id := "b" }

/-- A concrete query embedding for the examples. -/
def q0 : List ℚ := []

/-- A concrete store state before any stream message arrives. -/
def storeInit : SearchStoreState :=
  { taskResults := none, isDone := false }

/-- A concrete stream message carrying the in-progress marker status. -/
def msgInProcess : EventResponce :=
  { data := [], subreddit := "s", timeframe := "week", status := "in process" }

/-- A concrete stream message carrying the status "running". -/
def msgRunning : EventResponce :=
  { data := [], subreddit := "s", timeframe := "week", status := "running" }

/-- The cancelled task produced by cancelling a fresh task. -/
def cancelledTask : AnalysisTask :=
  { status := Status.cancelled, data := none, errMsg := none }

/-- The running task produced by starting a fresh task. -/
def runningTask : AnalysisTask :=
  { status := Status.running, data := none, errMsg := none }

/-- No registry transition starts from a terminal status. -/
theorem TaskStep.not_terminal {t t' : AnalysisTask} (h : TaskStep t t') :
    t.status.isTerminal = false := by
  cases h <;> simp_all [Status.isTerminal]

/-- Once a task is terminal, no further transition sequence changes it. -/
theorem terminal_frozen {t t' : AnalysisTask} (hterm : t.status.isTerminal = true)
    (h : Relation.ReflTransGen TaskStep t t') : t' = t := by
  rcases h.cases_head with h1 | ⟨c, hstep, _⟩
  · exact h1.symm
  · rw [TaskStep.not_terminal hstep] at hterm
    exact absurd hterm (by simp)

/-- The payload invariant: data present exactly on success. -/
def taskInv (t : AnalysisTask) : Prop :=
  t.data.isSome = true ↔ t.status = Status.success

/-- The payload invariant holds on creation. -/
theorem taskInv_init : taskInv initTask := by
  simp [taskInv, initTask]

/-- Each registry transition preserves the payload invariant. -/
theorem taskInv_step {t t' : AnalysisTask} (h : TaskStep t t') (hi : taskInv t) :
    taskInv t' := by
  cases h <;> simp_all [taskInv]

/-- The payload invariant holds in every reachable task state. -/
theorem taskInv_reachable {t : AnalysisTask} (h : Reachable t) : taskInv t := by
  induction h with
  | refl => exact taskInv_init
  | tail _ hstep ih => exact taskInv_step hstep ih

/-- Each registry transition advances the status rank. -/
theorem statusRank_step {t t' : AnalysisTask} (h : TaskStep t t') :
    statusRank t.status ≤ statusRank t'.status := by
  cases h <;> simp_all [statusRank]

/-- Status rank is monotone along any transition sequence. -/
theorem statusRank_mono {t t' : AnalysisTask}
    (h : Relation.ReflTransGen TaskStep t t') :
    statusRank t.status ≤ statusRank t'.status := by
  induction h with
  | refl => exact le_refl _
  | tail _ hstep ih => exact le_trans ih (statusRank_step hstep)

/-- Claim C2: in every reachable task state the result payload is populated
exactly when the status is success; once a task reaches a terminal status its
state never changes (so exactly one terminal status is ever reached); and
cancelling a freshly created task before any analysis completes yields the
terminal status cancelled with no payload populated. -/
theorem task_payload_iff_success :
    (∀ t : AnalysisTask, Reachable t →
      (t.data.isSome = true ↔ t.status = Status.success)) ∧
    (∀ t t' : AnalysisTask, t.status.isTerminal = true →
      Relation.ReflTransGen TaskStep t t' → t' = t) ∧
    ((cancelOp { task := initTask, cancelToken := false }).1.task.status
        = Status.cancelled ∧
      (cancelOp { task := initTask, cancelToken := false }).1.task.data = none) := by
  refine ⟨fun t ht => taskInv_reachable ht, fun t t' hterm h => terminal_frozen hterm h, ?_, ?_⟩
  · simp [cancelOp, initTask, Status.isTerminal]
  · simp [cancelOp, initTask, Status.isTerminal]

/-- Witness for C2 at a concrete trace: the cancelled task reached by
cancelling a fresh task is reachable, satisfies the payload invariant, and is
frozen under further transitions. -/
theorem task_payload_iff_success_witness :
    Reachable cancelledTask ∧
    (cancelledTask.data.isSome = true ↔ cancelledTask.status = Status.success) ∧
    cancelledTask = cancelledTask := by
  have hreach : Reachable cancelledTask :=
    Relation.ReflTransGen.single (TaskStep.cancelPending initTask rfl)
  exact ⟨hreach, task_payload_iff_success.1 cancelledTask hreach,
    task_payload_iff_success.2.1 cancelledTask cancelledTask rfl
      Relation.ReflTransGen.refl⟩

/-- Claim C4: `cancel` is idempotent. A terminal task is left unchanged and
its existing status returned; a pending or running task is marked cancelled
with the cancellation signal raised; a second cancel is a no-op returning the
same status as the first, so the last terminal status stays authoritative. -/
theorem cancel_idempotent (s : RunState) :
    (s.task.status.isTerminal = true → cancelOp s = (s, s.task.status)) ∧
    (s.task.status.isTerminal = false →
      (cancelOp s).1.task.status = Status.cancelled ∧
      (cancelOp s).1.cancelToken = true ∧
      (cancelOp s).2 = Status.cancelled) ∧
    cancelOp (cancelOp s).1 = ((cancelOp s).1, (cancelOp s).2) ∧
    (cancelOp (cancelOp s).1).2 = (cancelOp s).2 := by
  by_cases h : s.task.status.isTerminal = true <;>
    simp_all [cancelOp, Status.isTerminal]

/-- Witness for C4 at a concrete run state: cancelling a fresh pending run
marks it cancelled and a second cancel returns the same status. -/
theorem cancel_idempotent_witness :
    (cancelOp { task := initTask, cancelToken := false }).1.task.status
        = Status.cancelled ∧
    (cancelOp (cancelOp { task := initTask, cancelToken := false }).1).2
        = (cancelOp { task := initTask, cancelToken := false }).2 := by
  refine ⟨?_, (cancel_idempotent { task := initTask, cancelToken := false }).2.2.2⟩
  exact ((cancel_idempotent { task := initTask, cancelToken := false }).2.1
    (by simp [initTask, Status.isTerminal])).1

/-- Claim C7: along any transition sequence the observed status only
advances in rank (an earlier status is never observed after a later one), the
same status may be observed repeatedly, and an error status is never followed
by running — once error, the status stays error. -/
theorem status_monotone (t t' : AnalysisTask)
    (h : Relation.ReflTransGen TaskStep t t') :
    statusRank t.status ≤ statusRank t'.status ∧
    Relation.ReflTransGen TaskStep t t ∧
    (t.status = Status.error → t'.status = Status.error) := by
  refine ⟨statusRank_mono h, Relation.ReflTransGen.refl, fun he => ?_⟩
  have heq : t' = t := terminal_frozen (by simp [he, Status.isTerminal]) h
  rw [heq, he]

/-- Witness for C7 on the concrete trace pending → running. -/
theorem status_monotone_witness :
    statusRank initTask.status ≤ statusRank runningTask.status := by
  have h : Relation.ReflTransGen TaskStep initTask runningTask :=
    Relation.ReflTransGen.single (TaskStep.start initTask rfl)
  exact (status_monotone initTask runningTask h).1

/-- Any row list admitted by `match_posts` is sorted by non-increasing
similarity, since similarity is one minus the ORDER BY distance. -/
theorem match_posts_sorted_sim {dist : List ℚ → List ℚ → ℚ}
    {tbl : List RedditPost} {q : List ℚ} {τ : ℚ} {k : ℕ} {filt : Option String}
    {r : List MatchRow} (h : match_posts dist tbl q τ k filt r) :
    r.Pairwise (fun x y => y.similarity ≤ x.similarity) := by
  obtain ⟨s, hperm, hsort, hr⟩ := h
  subst hr
  refine List.Pairwise.map _ ?_ (List.Pairwise.sublist (List.take_sublist k s) hsort)
  intro a b hab
  exact sub_le_sub_left hab 1

/-- Claim C1: every row list admitted by the four-parameter `match_posts` has
at most `k` rows; each row is a stored post carrying
similarity = 1 - dist(query, embedding), strictly above the threshold and
matching the subreddit filter when one is set; every qualifying stored post
is either returned or crowded out by `k` rows of at least its similarity
(the rendering of "exactly the qualifying posts" under limit `k`); and the
rows are ordered by non-increasing similarity. -/
theorem match_posts_topk_contract
    (dist : List ℚ → List ℚ → ℚ) (tbl : List RedditPost) (q : List ℚ) (τ : ℚ)
    (k : ℕ) (filt : Option String) (r : List MatchRow)
    (h : match_posts dist tbl q τ k filt r) :
    r.length ≤ k ∧
    (∀ row ∈ r, ∃ p, p ∈ tbl ∧ row = rowOf dist q p ∧
      row.similarity = 1 - dist p.embedding q ∧ τ < row.similarity ∧
      ∀ f, filt = some f → row.subreddit = f) ∧
    (∀ p, p ∈ tbl → filtOk filt p = true → τ < simOf dist q p →
      rowOf dist q p ∈ r ∨
        (r.length = k ∧ ∀ row ∈ r, simOf dist q p ≤ row.similarity)) ∧
    r.Pairwise (fun x y => y.similarity ≤ x.similarity) := by
  have hsorted := match_posts_sorted_sim h
  obtain ⟨s, hperm, hsort, hr⟩ := h
  subst hr
  refine ⟨?_, ?_, ?_, hsorted⟩
  · simp only [List.length_map, List.length_take]
    exact min_le_left _ _
  · intro row hrow
    rw [List.mem_map] at hrow
    obtain ⟨p, hpTake, hpeq⟩ := hrow
    have hp_s : p ∈ s := List.take_subset k s hpTake
    have hp_f := hperm.mem_iff.mp hp_s
    rw [List.mem_filter] at hp_f
    obtain ⟨hp_tbl, hp_w⟩ := hp_f
    rw [whereOk, Bool.and_eq_true, decide_eq_true_iff] at hp_w
    refine ⟨p, hp_tbl, hpeq.symm, ?_, ?_, ?_⟩
    · rw [← hpeq]; rfl
    · rw [← hpeq]; exact hp_w.2
    · intro f hf
      subst hf
      rw [filtOk] at hp_w
      have := hp_w.1
      rw [beq_iff_eq] at this
      rw [← hpeq]
      exact this
  · intro p hp hfo hτ
    have hp_f : p ∈ tbl.filter (whereOk dist q τ filt) := by
      rw [List.mem_filter]
      refine ⟨hp, ?_⟩
      rw [whereOk, hfo, Bool.true_and, decide_eq_true_iff]
      exact hτ
    have hp_s : p ∈ s := hperm.mem_iff.mpr hp_f
    rw [← List.take_append_drop k s] at hp_s
    rcases List.mem_append.mp hp_s with hin | hout
    · exact Or.inl (List.mem_map_of_mem _ hin)
    · refine Or.inr ⟨?_, ?_⟩
      · have hklt : k < s.length := by
          by_contra hk
          push_neg at hk
          rw [List.drop_eq_nil_of_le hk] at hout
          exact absurd hout (List.not_mem_nil p)
        simp only [List.length_map, List.length_take]
        omega
      · intro row hrow
        rw [List.mem_map] at hrow
        obtain ⟨x, hxTake, hxeq⟩ := hrow
        rw [← List.take_append_drop k s] at hsort
        have hrel := (List.pairwise_append.mp hsort).2.2 x hxTake p hout
        rw [← hxeq]
        exact sub_le_sub_left hrel 1

/-- The table holding `postA` and `postB` admits the result listing `postB`
before `postA`: both pass the WHERE clause and lie at the same distance from
the query, so either arrangement is sorted. -/
theorem tie_rel_valid :
    match_posts d0 [postA, postB] q0 0 2 none
      [rowOf d0 q0 postB, rowOf d0 q0 postA] := by
  refine ⟨[postB, postA], ?_, ?_, rfl⟩
  · have hf : List.filter (whereOk d0 q0 0 none) [postA, postB] = [postA, postB] := by
      simp [List.filter_cons, whereOk, filtOk, simOf, d0]
    rw [hf]
    exact List.Perm.swap postA postB []
  · simp [List.pairwise_cons, distLE, d0]

/-- Witness for C1 at a concrete instance: the tie arrangement is admitted
and obeys the length bound. -/
theorem match_posts_topk_contract_witness :
    match_posts d0 [postA, postB] q0 0 2 none
      [rowOf d0 q0 postB, rowOf d0 q0 postA] ∧
    [rowOf d0 q0 postB, rowOf d0 q0 postA].length ≤ 2 :=
  ⟨tie_rel_valid,
    (match_posts_topk_contract d0 [postA, postB] q0 0 2 none _ tie_rel_valid).1⟩

/-- Counterexample to claim C5: `match_posts` admits a result in which two
rows of equal similarity appear with identifiers in descending order — the
SQL has no identifier tiebreak, so equal-similarity order is not identifier
ascending and the result is not a deterministic function of the inputs. -/
theorem tie_order_not_id_ascending :
    match_posts d0 [postA, postB] q0 0 2 none
      [rowOf d0 q0 postB, rowOf d0 q0 postA] ∧
    (rowOf d0 q0 postB).similarity = (rowOf d0 q0 postA).similarity ∧
    (rowOf d0 q0 postA).id < (rowOf d0 q0 postB).id := by
  refine ⟨tie_rel_valid, rfl, ?_⟩
  show ("a" : String) < "b"
  simp [String.lt_iff]
  decide

/-- Claim C5 as amended: rows of equal similarity may appear in either
order (no identifier tiebreak exists); the ordering guarantee is only that
similarity is non-increasing across the returned sequence. -/
theorem tie_order_similarity_only
    (dist : List ℚ → List ℚ → ℚ) (tbl : List RedditPost) (q : List ℚ) (τ : ℚ)
    (k : ℕ) (filt : Option String) (r : List MatchRow)
    (h : match_posts dist tbl q τ k filt r) :
    r.Pairwise (fun x y => y.similarity ≤ x.similarity) :=
  match_posts_sorted_sim h

/-- Witness for the amended C5 at the concrete tie instance. -/
theorem tie_order_similarity_only_witness :
    match_posts d0 [postA, postB] q0 0 2 none
      [rowOf d0 q0 postB, rowOf d0 q0 postA] ∧
    ([rowOf d0 q0 postB, rowOf d0 q0 postA] : List MatchRow).Pairwise
      (fun x y => y.similarity ≤ x.similarity) :=
  ⟨tie_rel_valid,
    tie_order_similarity_only d0 [postA, postB] q0 0 2 none _ tie_rel_valid⟩

/-- Claim C10: with a null subreddit filter the four-parameter `match_posts`
admits exactly the row lists of the three-parameter `match_posts` — the
filtered variant conservatively extends the unfiltered one. -/
theorem filtered_extends_unfiltered
    (dist : List ℚ → List ℚ → ℚ) (tbl : List RedditPost) (q : List ℚ) (τ : ℚ)
    (k : ℕ) (r : List MatchRow) :
    match_posts3 dist tbl q τ k r ↔ match_posts dist tbl q τ k none r := by
  have hw : whereOk dist q τ none = whereOk3 dist q τ := by
    funext p
    simp [whereOk, whereOk3, filtOk]
  unfold match_posts match_posts3
  rw [hw]

/-- Claim C6: a call whose query embedding has the wrong dimensionality
fails with the invalid-vector error, and a well-formed call over a table in
which no post's similarity exceeds the threshold returns the empty row list,
not an error. -/
theorem match_posts_dims_and_empty
    (dist : List ℚ → List ℚ → ℚ) (tbl : List RedditPost) (q : List ℚ) (τ : ℚ)
    (k : ℕ) (filt : Option String) :
    (q.length ≠ vecDims →
      match_posts_call dist tbl q τ k filt (Except.error MatchErr.invalidVector) ∧
      ∀ out, match_posts_call dist tbl q τ k filt out →
        out = Except.error MatchErr.invalidVector) ∧
    (q.length = vecDims → (∀ p ∈ tbl, simOf dist q p ≤ τ) →
      match_posts_call dist tbl q τ k filt (Except.ok []) ∧
      ∀ out, match_posts_call dist tbl q τ k filt out → out = Except.ok []) := by
  constructor
  · intro hq
    refine ⟨Or.inl ⟨hq, rfl⟩, ?_⟩
    rintro out (⟨-, h⟩ | ⟨hlen, -⟩)
    · exact h
    · exact absurd hlen hq
  · intro hq hτ
    have hfilter : tbl.filter (whereOk dist q τ filt) = [] := by
      rw [List.filter_eq_nil_iff]
      intro p hp
      have hnot : ¬ (τ < simOf dist q p) := not_lt.mpr (hτ p hp)
      simp [whereOk, hnot]
    constructor
    · refine Or.inr ⟨hq, [], ⟨[], ?_, List.Pairwise.nil, by simp⟩, rfl⟩
      rw [hfilter]
    · rintro out (⟨hlen, -⟩ | ⟨-, rr, ⟨s, hperm, -, hr⟩, hout⟩)
      · exact absurd hq hlen
      · rw [hfilter] at hperm
        have hs : s = [] := hperm.eq_nil
        subst hs
        simp only [List.take_nil, List.map_nil] at hr
        subst hr
        exact hout

/-- Witness for C6: a zero-length query is rejected; a 1536-dimensional
query over a table whose only post does not clear the threshold yields the
empty row list. -/
theorem match_posts_dims_and_empty_witness :
    match_posts_call d0 [postA] q0 0 5 none
      (Except.error MatchErr.invalidVector) ∧
    match_posts_call d0 [postA] (List.replicate 1536 0) 1 5 none
      (Except.ok []) := by
  constructor
  · exact ((match_posts_dims_and_empty d0 [postA] q0 0 5 none).1
      (by simp [q0, vecDims])).1
  · refine ((match_posts_dims_and_empty d0 [postA]
      (List.replicate 1536 0) 1 5 none).2 ?_ ?_).1
    · show (List.replicate 1536 (0:ℚ)).length = vecDims
      rw [vecDims]
      exact List.length_replicate 1536 0
    · intro p hp
      rw [List.mem_singleton] at hp
      subst hp
      simp [simOf, d0]

/-- Claim C3: the seen-set search never returns a row whose identifier lies
in the excluded set; hence when a second call passes the identifiers
returned by a first call as its excluded set, the two result sets are
disjoint. The excluded set is an argument of each call, not index state. -/
theorem search_seen_disjoint (dist : List ℚ → List ℚ → ℚ) (tbl : List RedditPost)
    (q : List ℚ) (τ : ℚ) (k : ℕ) (filt : Option String) :
    (∀ seen r, searchWithSeen dist tbl q τ k filt seen r →
      ∀ row ∈ r, row.id ∉ seen) ∧
    (∀ (r1 r2 : List MatchRow),
      searchWithSeen dist tbl q τ k filt (r1.map MatchRow.id) r2 →
      ∀ x ∈ r2.map MatchRow.id, x ∉ r1.map MatchRow.id) := by
  have hmain : ∀ seen r, searchWithSeen dist tbl q τ k filt seen r →
      ∀ row ∈ r, row.id ∉ seen := by
    rintro seen r ⟨s, hperm, -, hr⟩ row hrow
    subst hr
    rw [List.mem_map] at hrow
    obtain ⟨p, hpTake, hpeq⟩ := hrow
    have hp_s : p ∈ s := List.take_subset k s hpTake
    have hp_f := hperm.mem_iff.mp hp_s
    rw [List.mem_filter] at hp_f
    have hseen := hp_f.2
    simp only [Bool.not_eq_true', decide_eq_false_iff_not] at hseen
    rw [← hpeq]
    exact hseen
  refine ⟨hmain, fun r1 r2 h x hx => ?_⟩
  rw [List.mem_map] at hx
  obtain ⟨row, hrow, hxeq⟩ := hx
  rw [← hxeq]
  exact hmain (r1.map MatchRow.id) r2 h row hrow

/-- A concrete admitted result of the seen-set search: with "a" excluded,
only `postB` is returned. -/
theorem search_seen_valid_instance :
    searchWithSeen d0 [postA, postB] q0 0 5 none ["a"] [rowOf d0 q0 postB] := by
  refine ⟨[postB], ?_, ?_, rfl⟩
  · have hf : ([postA, postB].filter (whereOk d0 q0 0 none)).filter
        (fun p => !(decide (p.id ∈ (["a"] : List String)))) = [postB] := by
      simp [List.filter_cons, whereOk, filtOk, simOf, d0, postA, postB]
    rw [hf]
  · simp [List.pairwise_cons]

/-- Witness for C3 at the concrete instance: the returned identifier avoids
the excluded set. -/
theorem search_seen_disjoint_witness :
    searchWithSeen d0 [postA, postB] q0 0 5 none ["a"] [rowOf d0 q0 postB] ∧
    ∀ row ∈ [rowOf d0 q0 postB], row.id ∉ (["a"] : List String) :=
  ⟨search_seen_valid_instance,
    (search_seen_disjoint d0 [postA, postB] q0 0 5 none).1 ["a"] _
      search_seen_valid_instance⟩

/-- Counterexample to claim C8: the events-stream consumer keeps the stream
open exactly on messages whose status is "in process" — a value outside the
claimed five-status vocabulary — and closes the stream on the first message
with any other status, including "running", which the claim counts as
non-terminal. So the stream payloads do not follow the status endpoint's
vocabulary with closure only after a terminal message. -/
theorem events_vocabulary_cex :
    "running" ∈ specStatuses ∧ "running" ∉ specTerminal ∧
    (handleEvent storeInit msgRunning).2 = true ∧
    "in process" ∉ specStatuses ∧
    (handleEvent storeInit msgInProcess).2 = false := by
  refine ⟨?_, ?_, ?_, ?_, ?_⟩ <;>
    simp [specStatuses, specTerminal, handleEvent, msgRunning, msgInProcess]

/-- Claim C8 as amended: a stream message whose status is "in process"
clears the stored results and leaves the stream open; a message with any
other status closes the stream and is stored whole — payload shape
`{data, subreddit, timeframe, status}` — as the task results, marking the
task done. -/
theorem events_handler_behaviour (s : SearchStoreState) (msg : EventResponce) :
    (msg.status = "in process" →
      handleEvent s msg = ({ s with taskResults := none }, false)) ∧
    (msg.status ≠ "in process" →
      handleEvent s msg = ({ taskResults := some msg, isDone := true }, true)) := by
  constructor
  · intro h
    simp [handleEvent, h]
  · intro h
    simp [handleEvent, h]

/-- Witness for the amended C8 on concrete messages of both kinds. -/
theorem events_handler_behaviour_witness :
    msgInProcess.status = "in process" ∧
    handleEvent storeInit msgInProcess
      = ({ storeInit with taskResults := none }, false) ∧
    msgRunning.status ≠ "in process" ∧
    handleEvent storeInit msgRunning
      = ({ taskResults := some msgRunning, isDone := true }, true) := by
  have hne : msgRunning.status ≠ "in process" := by simp [msgRunning]
  exact ⟨rfl, (events_handler_behaviour storeInit msgInProcess).1 rfl, hne,
    (events_handler_behaviour storeInit msgRunning).2 hne⟩

/-- The ResultsPanel comparator is transitive. -/
theorem scoreDescB_trans (a b c : RedditPost) (h1 : scoreDescB a b = true)
    (h2 : scoreDescB b c = true) : scoreDescB a c = true := by
  simp only [scoreDescB, decide_eq_true_iff] at h1 h2 ⊢
  omega

/-- The ResultsPanel comparator is total. -/
theorem scoreDescB_total (a b : RedditPost) :
    (scoreDescB a b || scoreDescB b a) = true := by
  simp only [scoreDescB, Bool.or_eq_true, decide_eq_true_iff]
  omega

/-- Sorting with the ResultsPanel comparator yields a list whose scores are
non-increasing. -/
theorem mergeSort_score_sorted (l : List RedditPost) :
    (l.mergeSort scoreDescB).Pairwise (fun a b => b.score ≤ a.score) := by
  refine List.Pairwise.imp (fun h => of_decide_eq_true h)
    (@List.sorted_mergeSort RedditPost scoreDescB scoreDescB_trans scoreDescB_total l)

/-- The duplicate filter only removes elements. -/
theorem dedupBy_sublist (seen : List (String × Int)) (l : List RedditPost) :
    (dedupBy seen l).Sublist l := by
  induction l generalizing seen with
  | nil => simp [dedupBy]
  | cons p rest ih =>
    simp only [dedupBy]
    split
    · exact (ih seen).trans (List.sublist_cons_self p rest)
    · exact List.Sublist.cons₂ p (ih _)

/-- Claim C9: on the no-similarity-query path, the success payload assembled
by the pipeline is ordered by popularity score descending, and the list
rendered by ResultsPanel preserves that order: its scores are
non-increasing. -/
theorem popularity_sorted (analyze : RedditPost → String)
    (items results : List RedditPost) :
    (pipelineNoQueryData analyze items).Pairwise (fun a b => b.score ≤ a.score) ∧
    (displayedResults results).Pairwise (fun a b => b.score ≤ a.score) := by
  constructor
  · unfold pipelineNoQueryData
    refine List.Pairwise.map _ ?_ (mergeSort_score_sorted items)
    intro a b h
    exact h
  · unfold displayedResults
    exact List.Pairwise.sublist (dedupBy_sublist [] _)
      (mergeSort_score_sorted results)
